import Mathlib

/-!
Shallow embedding of the note-taking Telegram bot (src/ai_service.py,
src/db/repositories.py, src/db/models.py, src/bot.py).

Pure logic is translated function by function from the Python source.
External effects are made explicit:
  * the outcome of the OpenAI completion call is an `APIResult` parameter
    (the call may raise, return non-JSON text, return JSON that is not an
    object, or return an object);
  * the database is an explicit `DB` value threaded through the repository
    operations; a `storageOk` flag models whether the SQL commit raises;
  * a handler whose body can let a Python exception escape returns
    `Except String ...`, the `.error` case being the escaped exception;
  * Telegram message sends are recorded as `Event`s (ephemeral status
    messages and keyboard layout, pure UI plumbing, are elided).

Python string builtins (`strip`, `split`, `int`) are modelled by
structural functions over `List Char` so that every definition computes.
-/

/-- Python `str.strip()`: drop whitespace from both ends. -/
def pyStrip (s : String) : String :=
  ⟨((s.data.dropWhile Char.isWhitespace).reverse.dropWhile Char.isWhitespace).reverse⟩

/-- Split a character list on a separator character; the group list is
never empty (splitting the empty list yields one empty group), matching
Python `str.split(sep)` for a one-character separator. -/
def splitCharsOn (sep : Char) : List Char → List (List Char)
  | [] => [[]]
  | c :: cs =>
    match splitCharsOn sep cs with
    | [] => if c == sep then [[], []] else [[c]]
    | g :: gs => if c == sep then [] :: g :: gs else (c :: g) :: gs

/-- Python `data.split("_")`. -/
def pySplitUnderscore (s : String) : List String :=
  (splitCharsOn '_' s.data).map List.asString

/-- Numeric value of a run of decimal digits. -/
def digitsVal (cs : List Char) : Nat :=
  cs.foldl (fun acc c => acc * 10 + (c.toNat - 48)) 0

/-- Python `int(s)` on the id segment of a callback token: strips
whitespace, allows one leading sign, then requires a nonempty run of
decimal digits; `none` where `int` raises `ValueError`.  (Underscore digit
grouping never reaches `int` here because the segment comes from
`split("_")`.) -/
def pyInt (s : String) : Option Int :=
  let core : List Char × Bool :=
    match (pyStrip s).data with
    | '-' :: rest => (rest, true)
    | '+' :: rest => (rest, false)
    | t => (t, false)
  if core.1.isEmpty || !core.1.all Char.isDigit then none
  else some (if core.2 then -(digitsVal core.1 : Int) else (digitsVal core.1 : Int))

/-- `int(callback.data.split("_")[i])`, as `none` when it raises
(`IndexError` from a missing segment or `ValueError` from `int`). -/
def parse_id_at (data : String) (i : Nat) : Option Int :=
  match (pySplitUnderscore data)[i]? with
  | none => none
  | some seg => pyInt seg

/-- Result of `analyze_note`: the dict `{"category": ..., "description": ...}`. -/
structure AnalyzeResult where
  category : String
  description : String
deriving Repr, DecidableEq

/-- A JSON value sitting in a field of the parsed response object.
`str` is a JSON string; `nonStr` is any non-string JSON value, carrying
`str(e)` of the `AttributeError` that calling `.strip()` on it raises. -/
inductive JVal where
  | str (s : String)
  | nonStr (msg : String)
deriving Repr, DecidableEq

/-- Outcome of the completion call in `analyze_note` (src/ai_service.py:184-219):
the call raises (`msg` = `str(e)`), or returns text on which `json.loads`
raises `JSONDecodeError`, or returns valid JSON that is not an object (so
`.get` raises `AttributeError`, carried as `msg`), or returns a JSON object. -/
inductive APIResult where
  | raises (msg : String)
  | badJson
  | nonObject (msg : String)
  | object (fields : List (String × JVal))
deriving Repr, DecidableEq

/-- Lexicographic code-point comparison of character lists: the order in
which Python's `sorted` ranks strings. -/
def charListLe : List Char → List Char → Bool
  | [], _ => true
  | _ :: _, [] => false
  | a :: as, b :: bs =>
    if a.toNat < b.toNat then true
    else if b.toNat < a.toNat then false
    else charListLe as bs

/-- The string order used by Python's `sorted`. -/
def strLe (a b : String) : Prop := charListLe a.data b.data = true

instance : DecidableRel strLe := fun a b =>
  inferInstanceAs (Decidable (charListLe a.data b.data = true))

theorem charListLe_total : ∀ as bs, charListLe as bs = true ∨ charListLe bs as = true := by
  intro as
  induction as with
  | nil => intro bs; left; rfl
  | cons a as ih =>
    intro bs
    cases bs with
    | nil => right; rfl
    | cons b bs =>
      rcases Nat.lt_trichotomy a.toNat b.toNat with h | h | h
      · left; simp [charListLe, h]
      · rcases ih bs with h2 | h2
        · left; simp [charListLe, h, h2]
        · right; simp [charListLe, h.symm, h2]
      · right; simp [charListLe, h]

theorem charListLe_trans :
    ∀ as bs cs, charListLe as bs = true → charListLe bs cs = true →
      charListLe as cs = true := by
  intro as
  induction as with
  | nil => intro bs cs _ _; rfl
  | cons a as ih =>
    intro bs cs hab hbc
    cases bs with
    | nil => simp [charListLe] at hab
    | cons b bs =>
      cases cs with
      | nil => simp [charListLe] at hbc
      | cons c cs =>
        simp only [charListLe] at hab hbc ⊢
        by_cases h1 : a.toNat < b.toNat
        · by_cases h2 : b.toNat < c.toNat
          · simp [Nat.lt_trans h1 h2]
          · by_cases h3 : c.toNat < b.toNat
            · simp [h2, h3] at hbc
            · have hac : a.toNat < c.toNat := by omega
              simp [hac]
        · by_cases h1' : b.toNat < a.toNat
          · simp [h1, h1'] at hab
          · simp only [h1, if_neg h1', if_neg (by omega : ¬ b.toNat < a.toNat)] at hab
            by_cases h2 : b.toNat < c.toNat
            · have hac : a.toNat < c.toNat := by omega
              simp [hac]
            · by_cases h3 : c.toNat < b.toNat
              · simp [h2, h3] at hbc
              · simp only [if_neg h2, if_neg h3] at hbc
                have hnac : ¬ a.toNat < c.toNat := by omega
                have hnca : ¬ c.toNat < a.toNat := by omega
                simp only [if_neg hnac, if_neg hnca]
                exact ih bs cs hab hbc

instance : IsTotal String strLe := ⟨fun a b => charListLe_total a.data b.data⟩

instance : IsTrans String strLe := ⟨fun a b c => charListLe_trans a.data b.data c.data⟩

/-- The seven default categories (src/ai_service.py:30-38).
The Python value is a `set`; it is modelled as the list of its elements and
set semantics is recovered with `dedup` where the set union is taken. -/
def DEFAULT_CATEGORIES : List String :=
  ["🛒 Покупки", "💡 Идеи", "🍳 Рецепты", "🎬 Фильмы", "📚 Книги", "🎵 Музыка", "🎯 Прочее"]

/-- `get_available_categories` (src/ai_service.py:45-62): union of the default
set with the `None`-filtered user categories, returned sorted.  The
`user_categories` argument is `Optional[List[Optional[str]]]`; Python's
truthiness test `if user_categories:` skips both `None` and the empty list. -/
def validUserCategories (user_categories : Option (List (Option String))) : List String :=
  match user_categories with
  | none => []
  | some l => if l.isEmpty then [] else l.filterMap id

/-- Sorted union of the default set with the valid user categories
(the body of `get_available_categories`). -/
def get_available_categories (user_categories : Option (List (Option String))) : List String :=
  List.insertionSort strLe ((DEFAULT_CATEGORIES ++ validUserCategories user_categories).dedup)

/-- Python `dict.get(key, default)` on the parsed response object. -/
def dictGet (fields : List (String × JVal)) (key : String) (dflt : JVal) : JVal :=
  match fields.find? (fun p => p.1 == key) with
  | some p => p.2
  | none => dflt

/-- `analyze_note` (src/ai_service.py:69-248).  The `try` body parses the
response and strips both fields; `except json.JSONDecodeError` returns the
diagnostic fallback; `except Exception` (a raised call, a non-object
response, or a non-string field value whose `.strip()` raises) returns the
`"API недоступен: " + str(e)` fallback.  Total: the caller never sees an
exception. -/
def analyze_note (text : String) (user_categories : Option (List (Option String)))
    (ai : APIResult) : AnalyzeResult :=
  let _available := get_available_categories user_categories
  let _text := text
  match ai with
  | .raises msg => ⟨"🎯 Прочее", "API недоступен: " ++ msg⟩
  | .badJson => ⟨"🎯 Прочее", "Ошибка при анализе. Заметка сохранена, но описание не создано."⟩
  | .nonObject msg => ⟨"🎯 Прочее", "API недоступен: " ++ msg⟩
  | .object fields =>
    match dictGet fields "category" (.str "🎯 Прочее") with
    | .nonStr m => ⟨"🎯 Прочее", "API недоступен: " ++ m⟩
    | .str c =>
      match dictGet fields "description" (.str "") with
      | .nonStr m => ⟨"🎯 Прочее", "API недоступен: " ++ m⟩
      | .str d => ⟨pyStrip c, pyStrip d⟩

/-- Row of the `users` table (src/db/models.py:24-34).  `created_at` is set
by the database; it is irrelevant to every claim and elided. -/
structure User where
  id : Int
  username : Option String
deriving Repr, DecidableEq

/-- Row of the `notes` table (src/db/models.py:40-64).  `created_at` is the
database clock value at insertion, modelled as a monotone counter. -/
structure Note where
  id : Int
  user_id : Int
  text : String
  category : Option String
  description : Option String
  status : String
  created_at : Nat
deriving Repr, DecidableEq

/-- The relational store: the two tables plus the id sequence and the
database clock that stamps `created_at`. -/
structure DB where
  users : List User
  notes : List Note
  nextId : Int
  clock : Nat
deriving Repr, DecidableEq

/-- `UsersRepo.ensure` (src/db/repositories.py:19-27): insert the user row
only when no row with that primary key exists. -/
def UsersRepo.ensure (db : DB) (tg_id : Int) (username : Option String) : DB :=
  match db.users.find? (fun u => u.id == tg_id) with
  | some _ => db
  | none => { db with users := db.users ++ [⟨tg_id, username⟩] }

/-- `NotesRepo.create` (src/db/repositories.py:42-63): insert one row with
status `"active"` and return the stored entity. -/
def NotesRepo.create (db : DB) (user_id : Int) (text : String)
    (category description : Option String) : Note × DB :=
  let note : Note := ⟨db.nextId, user_id, text, category, description, "active", db.clock⟩
  (note, { db with notes := db.notes ++ [note], nextId := db.nextId + 1, clock := db.clock + 1 })

/-- `ORDER BY created_at DESC` of the SQL queries. -/
def newerFirst (a b : Note) : Prop := b.created_at ≤ a.created_at

instance : DecidableRel newerFirst := fun a b =>
  inferInstanceAs (Decidable (b.created_at ≤ a.created_at))

/-- `NotesRepo.list_latest` (src/db/repositories.py:65-77): active notes of
the user, newest first, capped at `limit`. -/
def NotesRepo.list_latest (db : DB) (user_id : Int) (limit : Nat) : List Note :=
  (List.insertionSort newerFirst
    (db.notes.filter (fun n => n.user_id == user_id && n.status == "active"))).take limit

/-- `NotesRepo.list_by_category` (src/db/repositories.py:80-101): active
notes of the user with an exact category match, newest first, capped at
`limit`.  (`Note.category == category` in SQL never matches a NULL
category.) -/
def NotesRepo.list_by_category (db : DB) (user_id : Int) (category : String)
    (limit : Nat) : List Note :=
  (List.insertionSort newerFirst
    (db.notes.filter
      (fun n => n.user_id == user_id && n.category == some category && n.status == "active"))).take
    limit

/-- `GROUP BY ... ORDER BY count DESC` of `get_all_categories`. -/
def biggerCount (a b : Option String × Nat) : Prop := b.2 ≤ a.2

instance : DecidableRel biggerCount := fun a b =>
  inferInstanceAs (Decidable (b.2 ≤ a.2))

/-- `NotesRepo.get_all_categories` (src/db/repositories.py:104-120):
distinct categories of the user's active notes with per-category counts,
largest count first.  SQL `GROUP BY` keeps a NULL category as its own
group, hence the `Option String` key. -/
def NotesRepo.get_all_categories (db : DB) (user_id : Int) :
    List (Option String × Nat) :=
  let act := db.notes.filter (fun n => n.user_id == user_id && n.status == "active")
  let cats := (act.map (fun n => n.category)).dedup
  List.insertionSort biggerCount
    (cats.map (fun c => (c, (act.filter (fun n => n.category == c)).length)))

/-- `s.get(Note, note_id)`: primary-key lookup. -/
def getNote (db : DB) (note_id : Int) : Option Note :=
  db.notes.find? (fun n => n.id == note_id)

/-- `s.delete(note); s.commit()` (src/bot.py:390-391): hard delete of the
row with that primary key. -/
def deleteNote (db : DB) (note_id : Int) : DB :=
  { db with notes := db.notes.filter (fun n => !(n.id == note_id)) }

/-- The global `EDITING_STATE` dict (src/bot.py:22), user id → note id
being edited, modelled as an association list. -/
def stateGet (m : List (Int × Int)) (k : Int) : Option Int :=
  (m.find? (fun p => p.1 == k)).map (fun p => p.2)

/-- `EDITING_STATE.pop(k)` — remove the binding for `k`. -/
def statePop (m : List (Int × Int)) (k : Int) : List (Int × Int) :=
  m.filter (fun p => !(p.1 == k))

/-- `EDITING_STATE[k] = v` — (re)bind `k`. -/
def stateSet (m : List (Int × Int)) (k v : Int) : List (Int × Int) :=
  statePop m k ++ [(k, v)]

/-- Process state the handlers touch: the database and `EDITING_STATE`.
(`LAST_REPLY`, which only tracks which message to auto-delete, is pure UI
plumbing and elided.) -/
structure BotState where
  db : DB
  editing : List (Int × Int)
deriving Repr, DecidableEq

/-- Observable effects of one handler run.  `reply` and `alert` carry the
user-visible message text (`alert` is `callback.answer(..., show_alert)`);
the note events record which row the handler showed, created, updated or
deleted.  Ephemeral status messages and keyboard markup are elided. -/
inductive Event where
  | reply (msg : String)
  | alert (msg : String)
  | shownDetail (note_id : Int)
  | editPrompt (note_id : Int)
  | confirmPrompt (note_id : Int)
  | createdNote (note_id : Int)
  | updatedNote (note_id : Int)
  | deletedNote (note_id : Int)
deriving Repr, DecidableEq

/-- `handle_note_selection` (src/bot.py:246-289): show the detail view of
note `note_<id>`.  The bare `int(...)` at line 253 is outside any
`try`, so a malformed id segment lets `ValueError` escape (`.error`). -/
def handle_note_selection (st : BotState) (from_user : Int) (data : String) :
    Except String (BotState × List Event) :=
  match parse_id_at data 1 with
  | none => .error "ValueError"
  | some note_id =>
    match getNote st.db note_id with
    | none => .ok (st, [.alert "❌ Заметка не найдена"])
    | some note =>
      if note.user_id == from_user then .ok (st, [.shownDetail note.id])
      else .ok (st, [.alert "❌ Заметка не найдена"])

/-- `handle_delete_note` (src/bot.py:327-363): show the delete-confirmation
menu for `delete_<id>`.  Same unguarded `int(...)` at line 334. -/
def handle_delete_note (st : BotState) (from_user : Int) (data : String) :
    Except String (BotState × List Event) :=
  match parse_id_at data 1 with
  | none => .error "ValueError"
  | some note_id =>
    match getNote st.db note_id with
    | none => .ok (st, [.alert "❌ Заметка не найдена"])
    | some note =>
      if note.user_id == from_user then .ok (st, [.confirmPrompt note_id])
      else .ok (st, [.alert "❌ Заметка не найдена"])

/-- `handle_edit_note` (src/bot.py:457-496): ask for replacement text for
`edit_<id>` and record the pending edit in `EDITING_STATE`.  Same
unguarded `int(...)` at line 464. -/
def handle_edit_note (st : BotState) (from_user : Int) (data : String) :
    Except String (BotState × List Event) :=
  match parse_id_at data 1 with
  | none => .error "ValueError"
  | some note_id =>
    match getNote st.db note_id with
    | none => .ok (st, [.alert "❌ Заметка не найдена"])
    | some note =>
      if note.user_id == from_user then
        .ok ({ st with editing := stateSet st.editing from_user note_id },
             [.editPrompt note_id])
      else .ok (st, [.alert "❌ Заметка не найдена"])

/-- `handle_confirm_delete` (src/bot.py:365-455): delete the row for
`confirm_delete_<id>` and re-render.  The `int(...)` at line 371 sits
before the `try`, so a malformed id escapes; inside the `try`, a failing
commit (`storageOk = false`) is caught and reported.  The post-delete
re-rendering of the category list is pure reads and message edits and is
elided. -/
def handle_confirm_delete (st : BotState) (from_user : Int) (data : String)
    (storageOk : Bool) : Except String (BotState × List Event) :=
  match parse_id_at data 2 with
  | none => .error "ValueError"
  | some note_id =>
    match getNote st.db note_id with
    | none => .ok (st, [.alert "❌ Заметка не найдена"])
    | some note =>
      if note.user_id == from_user then
        if storageOk then
          .ok ({ st with db := deleteNote st.db note_id },
               [.deletedNote note_id, .alert "✅ Заметка удалена"])
        else .ok (st, [.alert "❌ Ошибка при удалении"])
      else .ok (st, [.alert "❌ Заметка не найдена"])

/-- The user-categories computation of `handle_note` (src/bot.py:537-539
and 599-602): category column of `get_all_categories`, `None` filtered. -/
def userCatsOf (db : DB) (uid : Int) : List String :=
  ((NotesRepo.get_all_categories db uid).map (fun p => p.1)).filterMap id

/-- `handle_note` (src/bot.py:498-636): free-text messages.  If the sender
is in `EDITING_STATE` the text replaces the pending note (after length
validation, ownership check, re-classification and commit); otherwise a
valid-length text is classified and stored as a new note.  Both branches
catch every exception, so the handler is total.  `ai` is the outcome of
the one completion call; `storageOk` says whether the SQL commit raises. -/
def handle_note (st : BotState) (from_user : Int) (username : Option String)
    (raw : String) (ai : APIResult) (storageOk : Bool) : BotState × List Event :=
  let text := pyStrip raw
  match stateGet st.editing from_user with
  | some note_id =>
    let editing1 := statePop st.editing from_user
    if text.length < 3 || text.length > 60 then
      ({ st with editing := stateSet editing1 from_user note_id },
       [.reply "❌ Текст должен быть от 3 до 60 символов. Попробуй ещё раз!"])
    else
      match getNote st.db note_id with
      | none => ({ st with editing := editing1 }, [.reply "❌ Заметка не найдена"])
      | some note =>
        if note.user_id == from_user then
          let r := analyze_note text (some ((userCatsOf st.db from_user).map some)) ai
          if storageOk then
            let note' := { note with
              text := text
              category := some r.category
              description := some r.description }
            ({ db := { st.db with
                  notes := st.db.notes.map (fun n => if n.id == note_id then note' else n) },
               editing := editing1 },
             [.updatedNote note_id, .reply "✅ Заметка обновлена!"])
          else
            ({ st with editing := editing1 },
             [.reply "❌ Ошибка при сохранении. Попробуй ещё раз."])
        else ({ st with editing := editing1 }, [.reply "❌ Заметка не найдена"])
  | none =>
    if text.length < 3 || text.length > 60 then
      (st, [.reply "❌ Заметка должна быть от 3 до 60 символов. Попробуй ещё раз!"])
    else
      let db1 := UsersRepo.ensure st.db from_user username
      let r := analyze_note text (some ((userCatsOf db1 from_user).map some)) ai
      if storageOk then
        let created := NotesRepo.create db1 from_user text (some r.category) (some r.description)
        ({ st with db := created.2 },
         [.createdNote created.1.id, .reply "✅ Заметка сохранена! 📝"])
      else
        ({ st with db := db1 },
         [.reply "❌ Ошибка при сохранении заметки. Попробуй ещё раз позже."])

example : parse_id_at "note_123" 1 = some 123 := by decide
example : parse_id_at "note_abc" 1 = none := by decide
example : parse_id_at "note_" 1 = none := by decide
example : parse_id_at "confirm_delete_45" 2 = some 45 := by decide
example : pyStrip " ab " = "ab" := by decide
example : (get_available_categories none).length = 7 := by decide
example : (get_available_categories (some [some "🎮 Игры", none])).length = 8 := by decide
example : (get_available_categories none).Sorted strLe := by decide

/-! Concrete fixtures used by witnesses and counterexamples. -/

/-- A stored note owned by user 2. -/
def note5 : Note := ⟨5, 2, "старая заметка", some "💡 Идеи", some "описание", "active", 0⟩

/-- A store holding user 2 and their note 5. -/
def db0 : DB := ⟨[⟨2, some "owner"⟩], [note5], 6, 1⟩

/-- Empty store, nobody editing. -/
def st0 : BotState := ⟨⟨[], [], 1, 0⟩, []⟩

/-- Note 5 present, nobody editing. -/
def st1 : BotState := ⟨db0, []⟩

/-- User 2 has a pending edit of their note 5. -/
def stE : BotState := ⟨db0, [(2, 5)]⟩

/-- User 2 has a pending edit of the nonexistent note 99. -/
def stMiss : BotState := ⟨db0, [(2, 99)]⟩

/-! Helper lemmas shared by the claim theorems. -/

theorem api_unavailable_ne_empty (m : String) : "API недоступен: " ++ m ≠ "" := by
  intro h
  have hl := congrArg String.length h
  rw [String.length_append] at hl
  have h1 : ("API недоступен: " : String).length = 16 := rfl
  have h2 : ("" : String).length = 0 := rfl
  omega

theorem find?_append_of_none {α} (p : α → Bool) (l1 l2 : List α)
    (h : l1.find? p = none) : (l1 ++ l2).find? p = l2.find? p := by
  induction l1 with
  | nil => rfl
  | cons a l ih =>
    simp only [List.find?] at h
    cases hp : p a with
    | true => rw [hp] at h; exact absurd h (by simp)
    | false =>
      rw [hp] at h
      simp only [List.cons_append, List.find?, hp]
      exact ih h

/-- Field lookup in the parsed response object (`result.get(key)` without
the default). -/
def jfield (fields : List (String × JVal)) (key : String) : Option JVal :=
  (fields.find? (fun p => p.1 == key)).map (fun p => p.2)

theorem pyStrip_default_cat : pyStrip "🎯 Прочее" = "🎯 Прочее" := by decide

theorem pyStrip_empty : pyStrip "" = "" := rfl

/-- C1: for every input text and every outcome of the completion call,
`analyze_note` is total (it returns a value to its caller), and on a raised
call or a JSON parse failure it returns category `"🎯 Прочее"` with a
non-empty description. -/
theorem analyze_note_fallback_on_failure (text : String)
    (ucs : Option (List (Option String))) (ai : APIResult)
    (h : (∃ m, ai = APIResult.raises m) ∨ ai = APIResult.badJson) :
    (analyze_note text ucs ai).category = "🎯 Прочее" ∧
      (analyze_note text ucs ai).description ≠ "" := by
  rcases h with ⟨m, rfl⟩ | rfl
  · exact ⟨rfl, api_unavailable_ne_empty m⟩
  · refine ⟨rfl, ?_⟩
    show ("Ошибка при анализе. Заметка сохранена, но описание не создано." : String) ≠ ""
    decide

/-- Witness for C1 at a concrete failing outcome. -/
theorem analyze_note_fallback_on_failure_witness :
    (analyze_note "тест" none APIResult.badJson).category = "🎯 Прочее" ∧
      (analyze_note "тест" none APIResult.badJson).description ≠ "" :=
  analyze_note_fallback_on_failure "тест" none APIResult.badJson (Or.inr rfl)

/-- C9: when the response parses as a JSON object whose present fields are
strings, a missing `category` key yields the default `"🎯 Прочее"`, a
missing `description` key yields the empty string (not the diagnostic
fallback), and present fields are returned whitespace-stripped. -/
theorem analyze_note_object_defaults (text : String)
    (ucs : Option (List (Option String))) (fields : List (String × JVal))
    (hstr : ∀ p ∈ fields, ∃ s, p.2 = JVal.str s) :
    (jfield fields "category" = none →
        (analyze_note text ucs (.object fields)).category = "🎯 Прочее") ∧
    (jfield fields "description" = none →
        (analyze_note text ucs (.object fields)).description = "") ∧
    (∀ c, jfield fields "category" = some (.str c) →
        (analyze_note text ucs (.object fields)).category = pyStrip c) ∧
    (∀ d, jfield fields "description" = some (.str d) →
        (analyze_note text ucs (.object fields)).description = pyStrip d) := by
  have hcat : dictGet fields "category" (.str "🎯 Прочее") =
      (jfield fields "category").getD (.str "🎯 Прочее") := by
    unfold dictGet jfield
    cases fields.find? (fun p => p.1 == "category") <;> rfl
  have hdesc : dictGet fields "description" (.str "") =
      (jfield fields "description").getD (.str "") := by
    unfold dictGet jfield
    cases fields.find? (fun p => p.1 == "description") <;> rfl
  have hcs : ∀ v, jfield fields "category" = some v → ∃ s, v = JVal.str s := by
    intro v hv
    unfold jfield at hv
    cases hf : fields.find? (fun p => p.1 == "category") with
    | none => rw [hf] at hv; exact absurd hv (by simp)
    | some p =>
      rw [hf] at hv
      have hv' : p.2 = v := by simpa using hv
      obtain ⟨s, hs⟩ := hstr p (List.mem_of_find?_eq_some hf)
      exact ⟨s, hv' ▸ hs⟩
  have hds : ∀ v, jfield fields "description" = some v → ∃ s, v = JVal.str s := by
    intro v hv
    unfold jfield at hv
    cases hf : fields.find? (fun p => p.1 == "description") with
    | none => rw [hf] at hv; exact absurd hv (by simp)
    | some p =>
      rw [hf] at hv
      have hv' : p.2 = v := by simpa using hv
      obtain ⟨s, hs⟩ := hstr p (List.mem_of_find?_eq_some hf)
      exact ⟨s, hv' ▸ hs⟩
  refine ⟨?_, ?_, ?_, ?_⟩
  · intro hnone
    cases hd : jfield fields "description" with
    | none =>
      simp only [analyze_note, hcat, hdesc, hnone, hd, Option.getD_none, pyStrip_default_cat]
    | some v =>
      obtain ⟨s, rfl⟩ := hds v hd
      simp only [analyze_note, hcat, hdesc, hnone, hd, Option.getD_none, Option.getD_some,
        pyStrip_default_cat]
  · intro hnone
    cases hc : jfield fields "category" with
    | none =>
      simp only [analyze_note, hcat, hdesc, hnone, hc, Option.getD_none, pyStrip_empty]
    | some v =>
      obtain ⟨s, rfl⟩ := hcs v hc
      simp only [analyze_note, hcat, hdesc, hnone, hc, Option.getD_none, Option.getD_some,
        pyStrip_empty]
  · intro c hc
    cases hd : jfield fields "description" with
    | none =>
      simp only [analyze_note, hcat, hdesc, hc, hd, Option.getD_none, Option.getD_some]
    | some v =>
      obtain ⟨s, rfl⟩ := hds v hd
      simp only [analyze_note, hcat, hdesc, hc, hd, Option.getD_some]
  · intro d hd
    cases hc : jfield fields "category" with
    | none =>
      simp only [analyze_note, hcat, hdesc, hc, hd, Option.getD_none, Option.getD_some]
    | some v =>
      obtain ⟨s, rfl⟩ := hcs v hc
      simp only [analyze_note, hcat, hdesc, hc, hd, Option.getD_some]

/-- Witness for C9: the empty object gets the default category and an
empty description. -/
theorem analyze_note_object_defaults_witness :
    (analyze_note "тест" none (.object [])).category = "🎯 Прочее" ∧
      (analyze_note "тест" none (.object [])).description = "" := by
  have h := analyze_note_object_defaults "тест" none [] (by intro p hp; cases hp)
  exact ⟨h.1 rfl, h.2.1 rfl⟩

/-- C4: for every optional input list of user categories,
`get_available_categories` returns (it is total), its output contains every
one of the 7 default categories, has no duplicates, is sorted ascending in
the string order used by Python's `sorted`, and every element is either a
default category or a non-null entry of the input (so no null entries). -/
theorem get_available_categories_spec (ucs : Option (List (Option String))) :
    (∀ c ∈ DEFAULT_CATEGORIES, c ∈ get_available_categories ucs) ∧
    (get_available_categories ucs).Nodup ∧
    (get_available_categories ucs).Sorted strLe ∧
    (∀ c ∈ get_available_categories ucs,
        c ∈ DEFAULT_CATEGORIES ∨ some c ∈ ucs.getD []) := by
  have hperm : (get_available_categories ucs).Perm
      ((DEFAULT_CATEGORIES ++ validUserCategories ucs).dedup) :=
    List.perm_insertionSort strLe _
  refine ⟨?_, ?_, ?_, ?_⟩
  · intro c hc
    rw [hperm.mem_iff]
    exact List.mem_dedup.mpr (List.mem_append_left _ hc)
  · exact hperm.nodup_iff.mpr (List.nodup_dedup _)
  · exact List.sorted_insertionSort strLe _
  · intro c hc
    have hc' : c ∈ DEFAULT_CATEGORIES ++ validUserCategories ucs :=
      List.mem_dedup.mp (hperm.mem_iff.mp hc)
    rcases List.mem_append.mp hc' with h | h
    · exact Or.inl h
    · right
      cases ucs with
      | none => exact absurd h (by simp [validUserCategories])
      | some l =>
        simp only [validUserCategories] at h
        by_cases hl : l.isEmpty
        · rw [if_pos hl] at h
          exact absurd h (by simp)
        · rw [if_neg hl] at h
          rcases List.mem_filterMap.mp h with ⟨o, ho, hid⟩
          have : o = some c := hid
          rw [this] at ho
          simpa using ho

/-- Witness for C4 at a concrete input with a user category and a null. -/
theorem get_available_categories_spec_witness :
    "🎯 Прочее" ∈ get_available_categories (some [some "🎮 Игры", none]) ∧
      (get_available_categories (some [some "🎮 Игры", none])).Sorted strLe ∧
      (get_available_categories (some [some "🎮 Игры", none])).Nodup :=
  ⟨(get_available_categories_spec (some [some "🎮 Игры", none])).1 "🎯 Прочее" (by decide),
   (get_available_categories_spec (some [some "🎮 Игры", none])).2.2.1,
   (get_available_categories_spec (some [some "🎮 Игры", none])).2.1⟩

/-- C8: `UsersRepo.ensure` is an idempotent upsert-if-absent: when a user
row with the id exists the whole store (every field of every row, the
stored handle included) is unchanged, and a second call with any handle is
a no-op after a first call. -/
theorem ensure_idempotent (db : DB) (tg_id : Int) (h h2 : Option String) :
    ((db.users.find? (fun u => u.id == tg_id)).isSome →
        UsersRepo.ensure db tg_id h = db) ∧
    UsersRepo.ensure (UsersRepo.ensure db tg_id h) tg_id h2 =
      UsersRepo.ensure db tg_id h := by
  constructor
  · intro hex
    unfold UsersRepo.ensure
    cases hfind : db.users.find? (fun u => u.id == tg_id) with
    | some u => rfl
    | none => rw [hfind] at hex; exact absurd hex (by simp)
  · cases hfind : db.users.find? (fun u => u.id == tg_id) with
    | some u => simp [UsersRepo.ensure, hfind]
    | none =>
      have h2find : ((db.users ++ [(⟨tg_id, h⟩ : User)]).find? (fun u => u.id == tg_id))
          = some ⟨tg_id, h⟩ := by
        rw [find?_append_of_none _ _ _ hfind]
        simp [List.find?]
      simp [UsersRepo.ensure, hfind, h2find]

/-- Witness for C8: a repeat `ensure` with a different handle leaves the
existing row, its stored handle included, unchanged. -/
theorem ensure_idempotent_witness :
    UsersRepo.ensure ⟨[⟨2, some "старый"⟩], [], 1, 0⟩ 2 (some "новый") =
      ⟨[⟨2, some "старый"⟩], [], 1, 0⟩ :=
  (ensure_idempotent ⟨[⟨2, some "старый"⟩], [], 1, 0⟩ 2 (some "новый") none).1 (by decide)

/-! More shared helper lemmas. -/

theorem ensure_notes (db : DB) (t : Int) (u : Option String) :
    (UsersRepo.ensure db t u).notes = db.notes := by
  unfold UsersRepo.ensure
  cases db.users.find? (fun x => x.id == t) <;> rfl

theorem mem_deleted_ne {db : DB} {n : Int} {m : Note}
    (hm : m ∈ (deleteNote db n).notes) : m.id ≠ n := by
  have h2 := (List.mem_filter.mp hm).2
  simpa using h2

theorem mem_list_by_category_mem_notes {db : DB} {uid : Int} {c : String}
    {lim : Nat} {m : Note} (h : m ∈ NotesRepo.list_by_category db uid c lim) :
    m ∈ db.notes := by
  have h1 := List.mem_of_mem_take h
  have h2 := (List.perm_insertionSort newerFirst _).mem_iff.mp h1
  exact (List.mem_filter.mp h2).1

theorem mem_list_latest_mem_notes {db : DB} {uid : Int} {lim : Nat} {m : Note}
    (h : m ∈ NotesRepo.list_latest db uid lim) : m ∈ db.notes := by
  have h1 := List.mem_of_mem_take h
  have h2 := (List.perm_insertionSort newerFirst _).mem_iff.mp h1
  exact (List.mem_filter.mp h2).1

theorem stateGet_statePop_self (m : List (Int × Int)) (k : Int) :
    stateGet (statePop m k) k = none := by
  have hfind : (m.filter (fun p => !(p.1 == k))).find? (fun p => p.1 == k) = none := by
    rw [List.find?_eq_none]
    intro p hp
    have h2 := (List.mem_filter.mp hp).2
    simpa using h2
  unfold stateGet statePop
  rw [hfind]
  rfl

theorem stateGet_stateSet_self (m : List (Int × Int)) (k v : Int) :
    stateGet (stateSet m k v) k = some v := by
  have hfind : (m.filter (fun p => !(p.1 == k))).find? (fun p => p.1 == k) = none := by
    rw [List.find?_eq_none]
    intro p hp
    have h2 := (List.mem_filter.mp hp).2
    simpa using h2
  unfold stateGet stateSet statePop
  rw [find?_append_of_none _ _ _ hfind]
  simp [List.find?]

/-- C3: every note-scoped operation (view detail, edit, delete,
confirm-delete) on a note that does not exist or is not owned by the
acting user is refused with the not-found alert: the state is unchanged
and no detail/update/delete event is produced. -/
theorem note_ops_refuse_non_owner (st : BotState) (uid n : Int)
    (d1 d2 d3 d4 : String)
    (h1 : parse_id_at d1 1 = some n) (h2 : parse_id_at d2 1 = some n)
    (h3 : parse_id_at d3 1 = some n) (h4 : parse_id_at d4 2 = some n)
    (href : getNote st.db n = none ∨
      ∃ nt, getNote st.db n = some nt ∧ nt.user_id ≠ uid) :
    handle_note_selection st uid d1 = .ok (st, [.alert "❌ Заметка не найдена"]) ∧
    handle_edit_note st uid d2 = .ok (st, [.alert "❌ Заметка не найдена"]) ∧
    handle_delete_note st uid d3 = .ok (st, [.alert "❌ Заметка не найдена"]) ∧
    ∀ ok, handle_confirm_delete st uid d4 ok =
      .ok (st, [.alert "❌ Заметка не найдена"]) := by
  rcases href with hnone | ⟨nt, hnt, hne⟩
  · refine ⟨?_, ?_, ?_, fun ok => ?_⟩ <;>
      simp [handle_note_selection, handle_edit_note, handle_delete_note,
        handle_confirm_delete, h1, h2, h3, h4, hnone]
  · have hb : (nt.user_id == uid) = false := by
      rw [beq_eq_false_iff_ne]
      exact hne
    refine ⟨?_, ?_, ?_, fun ok => ?_⟩ <;>
      simp [handle_note_selection, handle_edit_note, handle_delete_note,
        handle_confirm_delete, h1, h2, h3, h4, hnt, hb]

/-- Witness for C3: user 1 attacking note 5 owned by user 2. -/
theorem note_ops_refuse_non_owner_witness :
    handle_note_selection st1 1 "note_5" = .ok (st1, [.alert "❌ Заметка не найдена"]) ∧
    handle_confirm_delete st1 1 "confirm_delete_5" true =
      .ok (st1, [.alert "❌ Заметка не найдена"]) := by
  have h := note_ops_refuse_non_owner st1 1 5 "note_5" "edit_5" "delete_5" "confirm_delete_5"
    (by decide) (by decide) (by decide) (by decide)
    (Or.inr ⟨note5, by decide, by decide⟩)
  exact ⟨h.1, h.2.2.2 true⟩

/-- C5: the code contradicts the claim.  Each id-carrying callback handler
converts the id segment with a bare `int(...)` outside any `try`
(src/bot.py:253, 334, 371, 464), so a malformed id lets `ValueError`
escape the handler instead of being rejected; no note operation is
performed before the exception. -/
theorem malformed_token_raises :
    handle_note_selection st1 1 "note_abc" = .error "ValueError" ∧
    handle_edit_note st1 1 "edit_" = .error "ValueError" ∧
    handle_delete_note st1 1 "delete_12x" = .error "ValueError" ∧
    handle_confirm_delete st1 1 "confirm_delete_abc" true = .error "ValueError" :=
  ⟨rfl, rfl, rfl, rfl⟩

/-- C6: after a confirmed delete of an owned note, the row is gone (hard
delete): the detail lookup reports not-found and neither
`list_by_category` nor `list_latest` ever returns it, for any user,
category or limit. -/
theorem confirm_delete_removes_note (st : BotState) (uid n : Int) (d : String)
    (hp : parse_id_at d 2 = some n) (nt : Note)
    (hnt : getNote st.db n = some nt) (hown : nt.user_id = uid) :
    ∃ st' evs, handle_confirm_delete st uid d true = .ok (st', evs) ∧
      Event.deletedNote n ∈ evs ∧
      getNote st'.db n = none ∧
      (∀ uid2 c lim m, m ∈ NotesRepo.list_by_category st'.db uid2 c lim → m.id ≠ n) ∧
      (∀ uid2 lim m, m ∈ NotesRepo.list_latest st'.db uid2 lim → m.id ≠ n) := by
  have hb : (nt.user_id == uid) = true := by
    rw [beq_iff_eq]
    exact hown
  refine ⟨{ st with db := deleteNote st.db n },
    [Event.deletedNote n, Event.alert "✅ Заметка удалена"], ?_, ?_, ?_, ?_, ?_⟩
  · simp [handle_confirm_delete, hp, hnt, hb]
  · simp
  · rw [getNote, List.find?_eq_none]
    intro x hx
    have := mem_deleted_ne hx
    simpa using this
  · intro uid2 c lim m hm
    exact mem_deleted_ne (mem_list_by_category_mem_notes hm)
  · intro uid2 lim m hm
    exact mem_deleted_ne (mem_list_latest_mem_notes hm)

/-- Witness for C6: owner 2 confirm-deletes their note 5. -/
theorem confirm_delete_removes_note_witness :
    ∃ st' evs, handle_confirm_delete st1 2 "confirm_delete_5" true = .ok (st', evs) ∧
      Event.deletedNote 5 ∈ evs ∧ getNote st'.db 5 = none := by
  obtain ⟨st', evs, ha, hb, hc, _, _⟩ :=
    confirm_delete_removes_note st1 2 5 "confirm_delete_5" (by decide) note5
      (by decide) (by decide)
  exact ⟨st', evs, ha, hb, hc⟩

/-- The row the create branch of `handle_note` appends. -/
def createdNoteOf (st : BotState) (uid : Int) (un : Option String)
    (raw : String) (ai : APIResult) : Note :=
  let db1 := UsersRepo.ensure st.db uid un
  let r := analyze_note (pyStrip raw) (some ((userCatsOf db1 uid).map some)) ai
  ⟨db1.nextId, uid, pyStrip raw, some r.category, some r.description, "active", db1.clock⟩

/-- Shared: the create branch of `handle_note` when no edit is pending, the
trimmed text has valid length and the commit succeeds, appends exactly one
row whose text is the trimmed input and reports it. -/
theorem handle_note_create_path (st : BotState) (uid : Int) (un : Option String)
    (raw : String) (ai : APIResult)
    (hni : stateGet st.editing uid = none)
    (h3 : 3 ≤ (pyStrip raw).length) (h60 : (pyStrip raw).length ≤ 60) :
    ∃ note, (handle_note st uid un raw ai true).1.db.notes = st.db.notes ++ [note] ∧
      note.text = pyStrip raw ∧
      Event.createdNote note.id ∈ (handle_note st uid un raw ai true).2 ∧
      (handle_note st uid un raw ai true).1.editing = st.editing := by
  have hcond : (decide ((pyStrip raw).length < 3) || decide ((pyStrip raw).length > 60))
      = false := by
    simp only [Bool.or_eq_false_iff, decide_eq_false_iff_not]
    omega
  refine ⟨createdNoteOf st uid un raw ai, ?_, rfl, ?_, ?_⟩ <;>
    simp [handle_note, hni, hcond, NotesRepo.create, ensure_notes, createdNoteOf]

/-- C2 counterexample: the raw input `" ab "` has length 4, inside [3,60],
yet the handler writes no note row and replies with the length rejection —
validation applies to the trimmed text (length 2), not the raw message. -/
theorem handle_note_raw_length_counterexample :
    (" ab " : String).length = 4 ∧ 3 ≤ 4 ∧ 4 ≤ 60 ∧
    (handle_note st0 1 none " ab " APIResult.badJson true).1.db.notes = [] ∧
    (handle_note st0 1 none " ab " APIResult.badJson true).2 =
      [Event.reply "❌ Заметка должна быть от 3 до 60 символов. Попробуй ещё раз!"] :=
  ⟨rfl, by omega, by omega, rfl, rfl⟩

/-- C2 (amended): with no pending edit, a message whose trimmed length is
in [3,60] leads to exactly one appended note row whose text equals the
trimmed input; a message whose trimmed length is outside [3,60] is
rejected with a user-visible reply and no row is written. -/
theorem handle_note_length_policy (st : BotState) (uid : Int) (un : Option String)
    (raw : String) (ai : APIResult)
    (hni : stateGet st.editing uid = none) :
    (3 ≤ (pyStrip raw).length → (pyStrip raw).length ≤ 60 →
      ∃ note, (handle_note st uid un raw ai true).1.db.notes = st.db.notes ++ [note] ∧
        note.text = pyStrip raw ∧
        Event.createdNote note.id ∈ (handle_note st uid un raw ai true).2) ∧
    ((pyStrip raw).length < 3 ∨ 60 < (pyStrip raw).length →
      (handle_note st uid un raw ai true).1.db = st.db ∧
      (handle_note st uid un raw ai true).2 =
        [Event.reply "❌ Заметка должна быть от 3 до 60 символов. Попробуй ещё раз!"]) := by
  constructor
  · intro h3 h60
    obtain ⟨note, ha, hb, hc, _⟩ := handle_note_create_path st uid un raw ai hni h3 h60
    exact ⟨note, ha, hb, hc⟩
  · intro hlen
    have hcond : (decide ((pyStrip raw).length < 3) || decide ((pyStrip raw).length > 60))
        = true := by
      rcases hlen with h | h <;> simp [h]
    constructor <;> simp [handle_note, hni, hcond]

/-- Witness for the amended C2 at a concrete valid input. -/
theorem handle_note_length_policy_witness :
    ∃ note,
      (handle_note st0 1 none " купить молоко " APIResult.badJson true).1.db.notes
        = st0.db.notes ++ [note] ∧
      note.text = pyStrip " купить молоко " ∧
      Event.createdNote note.id ∈
        (handle_note st0 1 none " купить молоко " APIResult.badJson true).2 :=
  (handle_note_length_policy st0 1 none " купить молоко " APIResult.badJson rfl).1
    (by decide) (by decide)

/-- C7: a user in `AwaitingEditText(n)` who sends a text of trimmed length
outside [3,60] stays in `AwaitingEditText(n)` for the same note id, gets a
validation notice, and the store is unchanged. -/
theorem edit_wrong_length_keeps_pending (st : BotState) (uid n : Int)
    (un : Option String) (raw : String) (ai : APIResult) (ok : Bool)
    (hed : stateGet st.editing uid = some n)
    (hlen : (pyStrip raw).length < 3 ∨ 60 < (pyStrip raw).length) :
    stateGet (handle_note st uid un raw ai ok).1.editing uid = some n ∧
    (handle_note st uid un raw ai ok).1.db = st.db ∧
    (handle_note st uid un raw ai ok).2 =
      [Event.reply "❌ Текст должен быть от 3 до 60 символов. Попробуй ещё раз!"] := by
  have hcond : (decide ((pyStrip raw).length < 3) || decide ((pyStrip raw).length > 60))
      = true := by
    rcases hlen with h | h <;> simp [h]
  refine ⟨?_, ?_, ?_⟩ <;>
    simp [handle_note, hed, hcond, stateGet_stateSet_self]

/-- Witness for C7: user 2, editing note 5, sends the too-short "ab". -/
theorem edit_wrong_length_keeps_pending_witness :
    stateGet (handle_note stE 2 none "ab" APIResult.badJson true).1.editing 2 = some 5 ∧
    (handle_note stE 2 none "ab" APIResult.badJson true).1.db = stE.db :=
  ⟨(edit_wrong_length_keeps_pending stE 2 5 none "ab" APIResult.badJson true rfl
      (Or.inl (by decide))).1,
   (edit_wrong_length_keeps_pending stE 2 5 none "ab" APIResult.badJson true rfl
      (Or.inl (by decide))).2.1⟩

/-- C10: in `AwaitingEditText(n)` with a valid-length text, when the note
is missing, not owned by the sender, or the commit fails, the pending edit
is dropped (the entry was popped before validation and is only restored on
the wrong-length branch), and a subsequent valid-length text from that
user creates a new note rather than retrying the edit. -/
theorem edit_failure_drops_pending (st : BotState) (uid n : Int)
    (un : Option String) (raw : String) (ai : APIResult) (storageOk : Bool)
    (hed : stateGet st.editing uid = some n)
    (h3 : 3 ≤ (pyStrip raw).length) (h60 : (pyStrip raw).length ≤ 60)
    (hfail : getNote st.db n = none ∨
      (∃ nt, getNote st.db n = some nt ∧ nt.user_id ≠ uid) ∨ storageOk = false) :
    stateGet (handle_note st uid un raw ai storageOk).1.editing uid = none ∧
    (∀ raw2 un2 ai2, 3 ≤ (pyStrip raw2).length → (pyStrip raw2).length ≤ 60 →
      ∃ note2,
        (handle_note (handle_note st uid un raw ai storageOk).1
            uid un2 raw2 ai2 true).1.db.notes
          = (handle_note st uid un raw ai storageOk).1.db.notes ++ [note2] ∧
        note2.text = pyStrip raw2 ∧
        Event.createdNote note2.id ∈
          (handle_note (handle_note st uid un raw ai storageOk).1
            uid un2 raw2 ai2 true).2) := by
  have hcond : (decide ((pyStrip raw).length < 3) || decide ((pyStrip raw).length > 60))
      = false := by
    simp only [Bool.or_eq_false_iff, decide_eq_false_iff_not]
    omega
  have hdrop : stateGet (handle_note st uid un raw ai storageOk).1.editing uid = none := by
    cases hget : getNote st.db n with
    | none => simp [handle_note, hed, hcond, hget, stateGet_statePop_self]
    | some nt =>
      cases hbv : (nt.user_id == uid) with
      | false => simp [handle_note, hed, hcond, hget, hbv, stateGet_statePop_self]
      | true =>
        cases storageOk with
        | true => simp [handle_note, hed, hcond, hget, hbv, stateGet_statePop_self]
        | false => simp [handle_note, hed, hcond, hget, hbv, stateGet_statePop_self]
  refine ⟨hdrop, ?_⟩
  intro raw2 un2 ai2 h3' h60'
  obtain ⟨note2, ha, hb, hc, _⟩ := handle_note_create_path
    (handle_note st uid un raw ai storageOk).1 uid un2 raw2 ai2 hdrop h3' h60'
  exact ⟨note2, ha, hb, hc⟩

/-- Witness for C10: user 2 edits the nonexistent note 99; the pending
edit is dropped. -/
theorem edit_failure_drops_pending_witness :
    stateGet (handle_note stMiss 2 none "новый текст" APIResult.badJson true).1.editing 2
      = none :=
  (edit_failure_drops_pending stMiss 2 99 none "новый текст" APIResult.badJson true rfl
    (by decide) (by decide) (Or.inl (by decide))).1
